import Mathlib

/-!
Verification of the test-run lifecycle component (`lib/pavilion/test_run.py`)
of the pavilion2 HPC test harness, as a shallow embedding in Lean 4.

Filesystem-mediated state (marker files, side files, the config store) is
modelled explicitly; external collaborators (the builder, the variable
resolver, the `re` regex engine, the json codec) are taken as parameters or
modelled at the level of their observable contract, matching the spec's
stated component boundaries.
-/

namespace Pavilion

/-! ## JSON values

Model of the JSON-representable values stored in the per-run files
(`config`, `RUN_COMPLETE`, ...). Python's `json.load` produces exactly these
shapes; `.get` is only defined on objects. -/

inductive JValue where
  | null : JValue
  | bool (b : Bool) : JValue
  | num (n : Int) : JValue
  | str (s : String) : JValue
  | arr (elems : List JValue) : JValue
  | obj (fields : List (String × JValue)) : JValue

/-- Python `dict.get key` on a parsed JSON object: the value for the key,
or `none` when the key is absent. -/
def dictGet : List (String × JValue) → String → Option JValue
  | [], _ => none
  | (k, v) :: rest, key => if k = key then some v else dictGet rest key

/-! ## Status states

The status-file states used by `TestRun` (`STATES` of `status_file`). -/

inductive RState where
  | created
  | building
  | build_error
  | prepping_run
  | running
  | run_timeout
  | run_done
  | run_error
  | results
  | complete
  | info
deriving DecidableEq

/-! ## ID Allocator (`TestRun.create_id_dir`)

The code lists the numeric-named subdirectories, then runs
`id_ = 1; while id_ in ids: id_ += 1` and creates that directory, the whole
sequence under one lockfile acquisition. The while loop is embedded with
explicit fuel (`maxList ids + 1` steps always suffice); the lock acquisition
and the directory creation are recorded as an event trace. -/

def maxList (l : List Nat) : Nat := l.foldr max 0

/-- The `while id_ in ids: id_ += 1` scan, with explicit fuel. -/
def findUnused (ids : List Nat) : Nat → Nat → Nat
  | 0, start => start
  | fuel + 1, start => if start ∈ ids then findUnused ids fuel (start + 1) else start

inductive IdEvent where
  | lockAcquire
  | scanIds
  | mkdirId (n : Nat)
  | lockRelease
deriving DecidableEq

/-- `TestRun.create_id_dir`: first-fit allocation over the existing numeric
directory names, performed between one lock acquire and its release. -/
def create_id_dir (ids : List Nat) : Nat × List IdEvent :=
  let i := findUnused ids (maxList ids + 1) 1
  (i, [IdEvent.lockAcquire, IdEvent.scanIds, IdEvent.mkdirId i, IdEvent.lockRelease])

/-! ## Skip-Condition Evaluator (`TestRun._evaluate_skip_conditions`)

`wd` is `resolver.TestConfigResolver.was_deferred` and `rm` is
`re.match pattern string`, both external collaborators, taken as
parameters. -/

/-- Append an end-of-string anchor when the value lacks one. -/
def anchorVal (val : String) : String :=
  if val.endsWith "$" then val else val ++ "$"

def notIfMsg (key val : String) : String :=
  "Skipping due to not_if match for key " ++ key ++ " with " ++ val

def onlyIfMsg (key : String) (vals : List String) : String :=
  "Skipping because only_if key " ++ key ++ " failed to match any of " ++
    String.intercalate ", " vals

/-- The inner `for val in not_if[key]` loop: deferred values are skipped,
matching values each append one message. -/
def notIfEntry (wd : String → Bool) (rm : String → String → Bool)
    (key : String) : List String → List String
  | [] => []
  | val :: rest =>
    if wd val then notIfEntry wd rm key rest
    else if rm (anchorVal val) key then
      notIfMsg key (anchorVal val) :: notIfEntry wd rm key rest
    else notIfEntry wd rm key rest

/-- The inner `for val in only_if[key]` loop: a deferred value sets
`match = True` and breaks; a regex match sets `match = True` and continues. -/
def onlyIfMatchLoop (wd : String → Bool) (rm : String → String → Bool)
    (key : String) : Bool → List String → Bool
  | m, [] => m
  | m, val :: rest =>
    if wd val then true
    else onlyIfMatchLoop wd rm key (m || rm (anchorVal val) key) rest

/-- The `for key in not_if` loop: deferred keys are skipped entirely. -/
def notIfReasons (wd : String → Bool) (rm : String → String → Bool) :
    List (String × List String) → List String
  | [] => []
  | (key, vals) :: rest =>
    (if wd key then [] else notIfEntry wd rm key vals) ++ notIfReasons wd rm rest

/-- The `for key in only_if` loop: deferred keys are skipped entirely; a key
whose loop ends with `match = False` appends one message. -/
def onlyIfReasons (wd : String → Bool) (rm : String → String → Bool) :
    List (String × List String) → List String
  | [] => []
  | (key, vals) :: rest =>
    (if wd key then []
     else if onlyIfMatchLoop wd rm key false vals then []
     else [onlyIfMsg key vals]) ++ onlyIfReasons wd rm rest

/-- `TestRun._evaluate_skip_conditions`: the ordered reason list. -/
def evaluate_skip_conditions (wd : String → Bool) (rm : String → String → Bool)
    (not_if only_if : List (String × List String)) : List String :=
  notIfReasons wd rm not_if ++ onlyIfReasons wd rm only_if

/-- `TestRun._get_skipped`: skip iff the reason list is non-empty; when
skipping, a COMPLETE status entry is recorded. -/
def get_skipped (reasons : List String) : Bool × List RState :=
  if reasons.isEmpty then (false, []) else (true, [RState.complete])

/-! ## Run Executor (`TestRun.run`)

The child process's behaviour is a trace of wait outcomes: each
`proc.wait timeout` call either returns the exit code or raises
`TimeoutExpired`, in which case the code observes the quiet time
(now minus the run log's mtime). -/

inductive WaitEvent where
  | exited (code : Int)
  | expired (quietTime : ℚ)

inductive RunOutcome where
  | ret (value : Bool)
  | timeoutRaised
  | waiting
deriving DecidableEq

inductive StepAction where
  | kill
  | retry (newBudget : ℚ)
deriving DecidableEq

/-- One `TimeoutExpired` handler iteration, from the source: kill when
`self.run_timeout < quiet_time`, else shrink the wait budget. -/
def runWaitStep (runTimeout budget quietTime : ℚ) : StepAction :=
  if runTimeout < quietTime then StepAction.kill
  else StepAction.retry (budget - quietTime)

/-- The same iteration as worded by the claim: kill when quiet-time is
greater than OR EQUAL to the configured timeout. Stated only to be compared
with `runWaitStep`. -/
def runWaitStepClaim (runTimeout budget quietTime : ℚ) : StepAction :=
  if runTimeout ≤ quietTime then StepAction.kill
  else StepAction.retry (budget - quietTime)

/-- The `while result is None` loop. Returns the loop outcome and whether
`proc.kill` was called. A `none` timeout waits indefinitely, so an
`expired` event is unrealizable there (mapped to `waiting`). -/
def runLoop (runTimeout : Option ℚ) : Option ℚ → List WaitEvent → RunOutcome × Bool
  | _, [] => (RunOutcome.waiting, false)
  | _, WaitEvent.exited code :: _ => (RunOutcome.ret (code == 0), false)
  | budget, WaitEvent.expired qt :: rest =>
    match runTimeout, budget with
    | some rt, some b =>
      if rt < qt then (RunOutcome.timeoutRaised, true)
      else runLoop runTimeout (some (b - qt)) rest
    | _, _ => (RunOutcome.waiting, false)

structure RunRes where
  launched : Bool
  killed : Bool
  outcome : RunOutcome
  statuses : List RState
deriving DecidableEq

/-- `TestRun.run`: refuse `build_only` runs with a RUN_ERROR status and a
`False` return; otherwise start the child and enter the wait loop with the
budget initialized to the configured timeout. -/
def run (buildOnly : Bool) (runTimeout : Option ℚ) (trace : List WaitEvent) : RunRes :=
  if buildOnly then
    { launched := false, killed := false, outcome := RunOutcome.ret false,
      statuses := [RState.run_error] }
  else
    let res := runLoop runTimeout runTimeout trace
    { launched := true, killed := res.2, outcome := res.1,
      statuses := [RState.prepping_run, RState.running, RState.running] ++
        (match res.1 with
          | RunOutcome.ret _ => [RState.run_done]
          | RunOutcome.timeoutRaised => [RState.run_timeout]
          | RunOutcome.waiting => []) }

def expiredTrace (qts : List ℚ) : List WaitEvent := qts.map WaitEvent.expired

/-! ## Completion Signal (`TestRun.set_run_complete` / `TestRun.complete`)

The marker file on disk is either absent, unreadable or unparseable
(OSError, ValueError, JSONDecodeError — all caught and logged), or parsed
to a JSON value. On a parsed non-object, `data.get` raises AttributeError,
which the `except` clause does not catch. -/

inductive CompleteRead where
  | absent
  | unparseable
  | parsed (v : JValue)

/-- `TestRun.set_run_complete`: the JSON object written to RUN_COMPLETE. -/
def set_run_complete (now : String) : JValue :=
  JValue.obj [("complete", JValue.str now)]

/-- The `TestRun.complete` property: `ok` models a normal return and
`error` models an uncaught exception escaping the accessor. -/
def completeAccessor (file : CompleteRead) : Except String (Option JValue) :=
  match file with
  | CompleteRead.absent => Except.ok none
  | CompleteRead.unparseable => Except.ok none
  | CompleteRead.parsed (JValue.obj fields) => Except.ok (dictGet fields "complete")
  | CompleteRead.parsed _ => Except.error "AttributeError"

/-! ## Build guard (`TestRun.build`) -/

structure BuildState where
  originLinkExists : Bool
  buildDirPresent : Bool
deriving DecidableEq

inductive BuildCall where
  | raised (st : BuildState)
  | returned (st : BuildState) (ok : Bool)
deriving DecidableEq

/-- `TestRun.build`: an existing origin link raises RuntimeError before any
build action; otherwise the builder runs, and on success the origin link is
created and the build tree copied, on failure the fail path is renamed into
the build path. -/
def build (st : BuildState) (builderOk : Bool) (copyOk : Bool) : BuildCall :=
  if st.originLinkExists then BuildCall.raised st
  else if builderOk then
    BuildCall.returned { originLinkExists := true, buildDirPresent := true } copyOk
  else
    BuildCall.returned { st with buildDirPresent := true } false

/-! ## Config store (`TestRun._save_config` / `TestRun._load_config`)

The filesystem is a path-keyed store of parsed JSON contents; the json
codec round-trip is the stdlib contract, performed under the config
lockfile in both directions. -/

abbrev FS := List (String × JValue)

def fsRead (fs : FS) (path : String) : Option JValue :=
  match fs with
  | [] => none
  | (p, v) :: rest => if p = path then some v else fsRead rest path

/-- `TestRun._save_config`: write the config file under the lock. -/
def save_config (fs : FS) (testPath : String) (config : JValue) : FS :=
  (testPath ++ "/config", config) :: fs

/-- `TestRun._load_config`: a missing config file raises TestRunError,
otherwise the parsed content is returned. -/
def load_config (fs : FS) (testPath : String) : Except String JValue :=
  match fsRead fs (testPath ++ "/config") with
  | none => Except.error "Could not find config file for test."
  | some v => Except.ok v

/-- The config rewrite performed by `TestRun.finalize`: the resolver's
output (an external collaborator) is saved over the initial snapshot. -/
def finalize_config (fs : FS) (testPath : String) (resolved : JValue) : FS :=
  save_config fs testPath resolved

/-! ## Job id side file (`TestRun.job_id` property and setter) -/

structure JobIdState where
  mem : Option String
  file : Option String
deriving DecidableEq

/-- The `job_id` setter: an IOError/OSError on the side-file write is
logged and swallowed; the in-memory value is set regardless. -/
def job_id_set (st : JobIdState) (writeOk : Bool) (v : String) : JobIdState :=
  if writeOk then { mem := some v, file := some v }
  else { mem := some v, file := st.file }

/-- The `job_id` getter: the in-memory value wins; otherwise a missing file
gives `none` (FileNotFoundError), a faulty read gives `none` (logged), and
a good read caches and returns the file content. -/
def job_id_get (st : JobIdState) (osFault : Bool) : Option String × JobIdState :=
  match st.mem with
  | some j => (some j, st)
  | none =>
    match st.file with
    | none => (none, st)
    | some content =>
      if osFault then (none, st)
      else (some content, { mem := some content, file := st.file })

/-! ## Skip update in `TestRun.finalize`

`finalize` runs `if not self.skipped: self.skipped = self._get_skipped()`.
The Bool result records whether the re-evaluation was performed. -/

structure SkipState where
  skipped : Bool
  statuses : List RState
deriving DecidableEq

def finalize_skip (st : SkipState) (reasons : List String) : SkipState × Bool :=
  if st.skipped then (st, false)
  else
    let g := get_skipped reasons
    ({ skipped := g.1, statuses := st.statuses ++ g.2 }, true)

/-! ## Helper lemmas -/

theorem mem_le_maxList {a : Nat} : ∀ {l : List Nat}, a ∈ l → a ≤ maxList l := by
  intro l h
  induction l with
  | nil => cases h
  | cons b t ih =>
    rcases List.mem_cons.mp h with h1 | h1
    · subst h1
      exact le_max_left a (maxList t)
    · exact le_trans (ih h1) (le_max_right b (maxList t))

theorem findUnused_not_mem (ids : List Nat) :
    ∀ (fuel start : Nat), maxList ids < start + fuel → findUnused ids fuel start ∉ ids := by
  intro fuel
  induction fuel with
  | zero =>
    intro start h hmem
    simp only [findUnused] at hmem
    exact absurd (mem_le_maxList hmem) (by omega)
  | succ n ih =>
    intro start h
    simp only [findUnused]
    by_cases hmem : start ∈ ids
    · rw [if_pos hmem]
      exact ih (start + 1) (by omega)
    · rw [if_neg hmem]
      exact hmem

theorem findUnused_min (ids : List Nat) :
    ∀ (fuel start k : Nat), start ≤ k → k < findUnused ids fuel start → k ∈ ids := by
  intro fuel
  induction fuel with
  | zero =>
    intro start k hle hlt
    simp only [findUnused] at hlt
    omega
  | succ n ih =>
    intro start k hle hlt
    simp only [findUnused] at hlt
    by_cases hmem : start ∈ ids
    · simp only [hmem, if_true] at hlt
      rcases Nat.eq_or_lt_of_le hle with h1 | h1
      · subst h1; exact hmem
      · exact ih (start + 1) k h1 hlt
    · simp only [hmem, if_false] at hlt
      omega

theorem findUnused_ge (ids : List Nat) :
    ∀ (fuel start : Nat), start ≤ findUnused ids fuel start := by
  intro fuel
  induction fuel with
  | zero => intro start; simp [findUnused]
  | succ n ih =>
    intro start
    simp only [findUnused]
    by_cases hmem : start ∈ ids
    · rw [if_pos hmem]
      exact le_trans (Nat.le_succ start) (ih (start + 1))
    · rw [if_neg hmem]

theorem notIfEntry_deferred_vals (wd : String → Bool) (rm : String → String → Bool)
    (key : String) : ∀ vals : List String,
    notIfEntry wd rm key vals = notIfEntry wd rm key (vals.filter fun v => !wd v) := by
  intro vals
  induction vals with
  | nil => rfl
  | cons v rest ih =>
    cases h : wd v with
    | true => simp [notIfEntry, h, List.filter_cons, ih]
    | false => simp [notIfEntry, h, List.filter_cons, ih]

theorem onlyIfMatchLoop_deferred (wd : String → Bool) (rm : String → String → Bool)
    (key : String) : ∀ (vals : List String) (m : Bool),
    (∃ v ∈ vals, wd v = true) → onlyIfMatchLoop wd rm key m vals = true := by
  intro vals
  induction vals with
  | nil =>
    rintro m ⟨v, hv, _⟩
    cases hv
  | cons v rest ih =>
    rintro m ⟨w, hw, hdef⟩
    cases h : wd v with
    | true => simp [onlyIfMatchLoop, h]
    | false =>
      have hw2 : w ∈ rest := by
        rcases List.mem_cons.mp hw with h1 | h1
        · subst h1; rw [h] at hdef; cases hdef
        · exact h1
      simp only [onlyIfMatchLoop, h, if_false]
      exact ih _ ⟨w, hw2, hdef⟩

theorem runLoop_quiet_exit (rt : ℚ) (c : Int) (rest : List WaitEvent) :
    ∀ (qts : List ℚ) (b : ℚ), (∀ qt ∈ qts, ¬ rt < qt) →
    runLoop (some rt) (some b) (expiredTrace qts ++ WaitEvent.exited c :: rest)
      = (RunOutcome.ret (c == 0), false) := by
  intro qts
  induction qts with
  | nil => intro b _; rfl
  | cons q qs ih =>
    intro b h
    have hq : ¬ rt < q := h q (List.mem_cons_self q qs)
    simp only [expiredTrace, List.map_cons, List.cons_append, runLoop, hq, if_false]
    exact ih (b - q) fun qt hqt => h qt (List.mem_cons_of_mem q hqt)

/-! ## Claim theorems -/

/-- Claim C1, counterexample: at quiet-time exactly equal to the configured
timeout (runTimeout = 2, budget = 2, quietTime = 2) the code retries with a
zero budget, while the claim's wording (kill when quiet-time is greater
than or equal to the timeout) mandates a kill. -/
theorem claim_C1_counterexample :
    runWaitStep 2 2 2 = StepAction.retry 0
    ∧ runWaitStepClaim 2 2 2 = StepAction.kill
    ∧ runWaitStep 2 2 2 ≠ runWaitStepClaim 2 2 2 := by
  have h1 : runWaitStep 2 2 2 = StepAction.retry 0 := by
    norm_num [runWaitStep]
  have h2 : runWaitStepClaim 2 2 2 = StepAction.kill := by
    norm_num [runWaitStepClaim]
  refine ⟨h1, h2, ?_⟩
  rw [h1, h2]
  simp

/-- Claim C1, amended: on a deadline-expired wakeup the child is killed,
a run-timeout status is recorded and a timeout error is raised exactly when
quiet-time is STRICTLY greater than the configured timeout; otherwise the
remaining wait budget shrinks by quiet-time and the wait repeats. -/
theorem claim_C1_amended : ∀ (rt b qt : ℚ) (rest : List WaitEvent),
    (rt < qt →
      runWaitStep rt b qt = StepAction.kill
      ∧ (run false (some rt) (WaitEvent.expired qt :: rest)).outcome = RunOutcome.timeoutRaised
      ∧ (run false (some rt) (WaitEvent.expired qt :: rest)).killed = true
      ∧ RState.run_timeout ∈ (run false (some rt) (WaitEvent.expired qt :: rest)).statuses)
    ∧ (¬ rt < qt →
      runWaitStep rt b qt = StepAction.retry (b - qt)
      ∧ runLoop (some rt) (some b) (WaitEvent.expired qt :: rest)
          = runLoop (some rt) (some (b - qt)) rest) := by
  intro rt b qt rest
  constructor
  · intro h
    refine ⟨by simp [runWaitStep, h], ?_, ?_, ?_⟩ <;>
      simp [run, runLoop, h]
  · intro h
    exact ⟨by simp [runWaitStep, h], by simp [runLoop, h]⟩

/-- Claim C1, witness: with timeout 1 and an observed quiet-time of 2 the
child is killed, RUN_TIMEOUT is recorded and the timeout error is raised. -/
theorem claim_C1_witness :
    (1 : ℚ) < 2
    ∧ (runWaitStep 1 1 2 = StepAction.kill
      ∧ (run false (some 1) [WaitEvent.expired 2]).outcome = RunOutcome.timeoutRaised
      ∧ (run false (some 1) [WaitEvent.expired 2]).killed = true
      ∧ RState.run_timeout ∈ (run false (some 1) [WaitEvent.expired 2]).statuses) :=
  ⟨by norm_num, (claim_C1_amended 1 1 2 []).1 (by norm_num)⟩

/-- Claim C2: `create_id_dir` allocates the smallest positive integer not
in use, between a single lock acquire and release; with directories
1, 2 and 4 present (3 was removed) the next allocation yields 3. -/
theorem claim_C2 : ∀ ids : List Nat,
    (create_id_dir ids).1 ∉ ids
    ∧ 1 ≤ (create_id_dir ids).1
    ∧ (∀ k, 1 ≤ k → k < (create_id_dir ids).1 → k ∈ ids)
    ∧ (create_id_dir ids).2 =
        [IdEvent.lockAcquire, IdEvent.scanIds, IdEvent.mkdirId (create_id_dir ids).1,
          IdEvent.lockRelease]
    ∧ (create_id_dir [1, 2, 4]).1 = 3 := by
  intro ids
  refine ⟨?_, ?_, ?_, rfl, by decide⟩
  · exact findUnused_not_mem ids (maxList ids + 1) 1 (by omega)
  · exact findUnused_ge ids (maxList ids + 1) 1
  · intro k hk hlt
    exact findUnused_min ids (maxList ids + 1) 1 k hk hlt

/-- Claim C2, witness: in the reuse scenario 1, 2, 4 every id below the
allocated id 3 is in use, checked at k = 2. -/
theorem claim_C2_witness :
    (1 ≤ 2 ∧ 2 < (create_id_dir [1, 2, 4]).1) ∧ 2 ∈ [1, 2, 4] :=
  ⟨⟨by decide, by decide⟩, (claim_C2 [1, 2, 4]).2.2.1 2 (by decide) (by decide)⟩

/-- Claim C3: deferred handling in skip evaluation — a deferred not_if key
or value contributes no reason; a deferred only_if key is skipped entirely;
a deferred only_if value forces the match loop to true, so the key
contributes no reason. -/
theorem claim_C3 : ∀ (wd : String → Bool) (rm : String → String → Bool)
    (key : String) (vals : List String) (m : Bool),
    (wd key = true → evaluate_skip_conditions wd rm [(key, vals)] [] = [])
    ∧ notIfEntry wd rm key vals = notIfEntry wd rm key (vals.filter fun v => !wd v)
    ∧ (wd key = true → evaluate_skip_conditions wd rm [] [(key, vals)] = [])
    ∧ ((∃ v ∈ vals, wd v = true) →
        onlyIfMatchLoop wd rm key m vals = true
        ∧ evaluate_skip_conditions wd rm [] [(key, vals)] = []) := by
  intro wd rm key vals m
  refine ⟨?_, notIfEntry_deferred_vals wd rm key vals, ?_, ?_⟩
  · intro h
    simp [evaluate_skip_conditions, notIfReasons, onlyIfReasons, h]
  · intro h
    simp [evaluate_skip_conditions, notIfReasons, onlyIfReasons, h]
  · intro h
    refine ⟨onlyIfMatchLoop_deferred wd rm key vals m h, ?_⟩
    have h2 := onlyIfMatchLoop_deferred wd rm key vals false h
    cases hk : wd key <;>
      simp [evaluate_skip_conditions, notIfReasons, onlyIfReasons, hk, h2]

/-- Claim C3, witness: an only_if entry whose sole value is deferred yields
an automatic match and no skip reason. -/
theorem claim_C3_witness :
    onlyIfMatchLoop (fun s => s == "dfr") (fun _ _ => false) "mode" false ["dfr"] = true
    ∧ evaluate_skip_conditions (fun s => s == "dfr") (fun _ _ => false)
        [] [("mode", ["dfr"])] = [] :=
  (claim_C3 (fun s => s == "dfr") (fun _ _ => false) "mode" ["dfr"] false).2.2.2
    ⟨"dfr", by decide, by decide⟩

/-- Claim C4, counterexample: a marker file containing the valid JSON value
list-of-nothing is malformed as a marker, yet the accessor raises an
uncaught AttributeError (from `data.get` on a non-dict) instead of
returning none. -/
theorem claim_C4_counterexample :
    completeAccessor (CompleteRead.parsed (JValue.arr [])) = Except.error "AttributeError" := rfl

/-- Claim C4, amended: the accessor returns none when the marker is absent
and none when its content fails to parse (logged, no exception); after
`set_run_complete` it returns the stored timestamp string; a parsed object
yields its complete field; but a marker parsing to a non-object JSON value
(e.g. a list) raises an uncaught AttributeError. -/
theorem claim_C4_amended : ∀ (ts : String) (elems : List JValue)
    (fields : List (String × JValue)),
    completeAccessor CompleteRead.absent = Except.ok none
    ∧ completeAccessor CompleteRead.unparseable = Except.ok none
    ∧ completeAccessor (CompleteRead.parsed (set_run_complete ts))
        = Except.ok (some (JValue.str ts))
    ∧ completeAccessor (CompleteRead.parsed (JValue.obj fields))
        = Except.ok (dictGet fields "complete")
    ∧ completeAccessor (CompleteRead.parsed (JValue.arr elems))
        = Except.error "AttributeError" := by
  intro ts elems fields
  refine ⟨rfl, rfl, ?_, rfl, ?_⟩
  · simp [completeAccessor, set_run_complete, dictGet]
  · cases elems <;> rfl

/-- Claim C5: calling `build` on a run whose origin link exists raises
before any build action, leaving the state unchanged. -/
theorem claim_C5 : ∀ (st : BuildState) (builderOk copyOk : Bool),
    st.originLinkExists = true → build st builderOk copyOk = BuildCall.raised st := by
  intro st bOk cOk h
  simp [build, h]

/-- Claim C5, witness: the guard fires on a concrete state with the origin
link present, returning that same state. -/
theorem claim_C5_witness :
    (⟨true, false⟩ : BuildState).originLinkExists = true
    ∧ build ⟨true, false⟩ true true = BuildCall.raised ⟨true, false⟩ :=
  ⟨rfl, claim_C5 ⟨true, false⟩ true true rfl⟩

/-- Claim C6: saving a config and loading it back by id reproduces it
exactly; in particular the finalize rewrite is what a reload returns. -/
theorem claim_C6 : ∀ (fs : FS) (testPath : String) (config resolved : JValue),
    load_config (save_config fs testPath config) testPath = Except.ok config
    ∧ load_config (finalize_config fs testPath resolved) testPath = Except.ok resolved := by
  intro fs p c r
  constructor <;> simp [load_config, save_config, finalize_config, fsRead]

/-- Claim C7: a build-only run is refused — `run` returns failure, no child
is launched, and only a RUN_ERROR status is recorded. -/
theorem claim_C7 : ∀ (rt : Option ℚ) (trace : List WaitEvent),
    (run true rt trace).launched = false
    ∧ (run true rt trace).outcome = RunOutcome.ret false
    ∧ (run true rt trace).statuses = [RState.run_error] := by
  intro rt trace
  exact ⟨rfl, rfl, rfl⟩

/-- Claim C8: when the child exits (after any number of surviving quiet
wakeups), `run` returns true iff the exit code is exactly zero; nonzero
codes yield a plain false return, the child is not killed, and RUN_DONE is
recorded. -/
theorem claim_C8 : ∀ (rt : ℚ) (qts : List ℚ) (c : Int) (rest : List WaitEvent),
    (∀ qt ∈ qts, ¬ rt < qt) →
    (((run false (some rt) (expiredTrace qts ++ WaitEvent.exited c :: rest)).outcome
        = RunOutcome.ret true ↔ c = 0)
    ∧ (c ≠ 0 → (run false (some rt) (expiredTrace qts ++ WaitEvent.exited c :: rest)).outcome
        = RunOutcome.ret false)
    ∧ (run false (some rt) (expiredTrace qts ++ WaitEvent.exited c :: rest)).killed = false
    ∧ RState.run_done ∈
        (run false (some rt) (expiredTrace qts ++ WaitEvent.exited c :: rest)).statuses) := by
  intro rt qts c rest h
  have hl := runLoop_quiet_exit rt c rest qts rt h
  refine ⟨?_, ?_, ?_, ?_⟩
  · simp [run, hl]
  · intro hc
    simp [run, hl, hc]
  · simp [run, hl]
  · simp [run, hl]

/-- Claim C8, witness: with timeout 2, one quiet wakeup of 1 second and an
exit code of 0, the run returns true. -/
theorem claim_C8_witness :
    (∀ qt ∈ ([1] : List ℚ), ¬ (2 : ℚ) < qt)
    ∧ ((run false (some 2) (expiredTrace [1] ++ WaitEvent.exited 0 :: [])).outcome
        = RunOutcome.ret true ↔ (0 : Int) = 0) :=
  ⟨by decide, (claim_C8 2 [1] 0 [] (by decide)).1⟩

/-- Claim C9: setting the job id never raises — the write failure is
swallowed, the in-memory value is still set, a subsequent read returns it,
and a failed write leaves the side file untouched. -/
theorem claim_C9 : ∀ (st : JobIdState) (writeOk osFault : Bool) (v : String),
    (job_id_set st writeOk v).mem = some v
    ∧ (job_id_get (job_id_set st writeOk v) osFault).1 = some v
    ∧ (job_id_set st false v).file = st.file := by
  intro st w o v
  refine ⟨?_, ?_, rfl⟩ <;> cases w <;> rfl

/-- Claim C10: the skipped flag is monotone across `finalize` — a skipped
run is never re-evaluated and stays skipped; only a non-skipped run is
re-evaluated, to the fresh skip-condition result. -/
theorem claim_C10 : ∀ (st : SkipState) (reasons : List String),
    (st.skipped = true → finalize_skip st reasons = (st, false))
    ∧ (st.skipped = true → (finalize_skip st reasons).1.skipped = true)
    ∧ (st.skipped = false →
        (finalize_skip st reasons).2 = true
        ∧ (finalize_skip st reasons).1.skipped = (get_skipped reasons).1) := by
  intro st reasons
  refine ⟨?_, ?_, ?_⟩ <;> intro h <;> simp [finalize_skip, h]

/-- Claim C10, witness: a skipped run stays skipped and is not
re-evaluated, even when the fresh conditions would not skip. -/
theorem claim_C10_witness :
    (⟨true, []⟩ : SkipState).skipped = true
    ∧ finalize_skip ⟨true, []⟩ [] = (⟨true, []⟩, false) :=
  ⟨rfl, (claim_C10 ⟨true, []⟩ []).1 rfl⟩

end Pavilion
